import Mathlib

/-!
# Verification of the shahryar-app audio bridge and persistence service

Shallow embedding of the two source files:
* `src/hooks/useLiveGemini.ts` — the audio bridge `onmessage` reactions
  (audio-chunk scheduling, interruption) over the mutable refs
  `nextStartTimeRef`, `sourcesRef`, and the `isSpeaking` state.
* `src/unnamed/part_000` — the Express persistence service over a single
  JSON document `{ users, sessions }` (register, login, update, get,
  session upsert/delete, `getDb`/`saveDb`).

Times are modelled as rationals, JS objects as Lean structures, and the
file-backed document as an explicit `Db` value threaded through each
handler.  `saveDb` (part_000 lines 58–66) catches its own write error
and returns a boolean, never throwing; this outcome is passed to a
handler as a boolean `saveOk`.  Each handler output records the
persistent document after the request (unchanged when nothing was
successfully written) together with whether `saveDb` was invoked.
-/

namespace Shahryar

/-! ## Audio bridge state (src/hooks/useLiveGemini.ts) -/

/-- One scheduled chunk of decoded audio: an `AudioBufferSourceNode`
with the start time passed to `source.start` and its buffer duration.
The `uid` distinguishes distinct source objects in the active set. -/
structure PlaybackUnit where
  uid : Nat
  start : ℚ
  duration : ℚ
deriving DecidableEq, Repr

/-- The mutable state of the bridge playback pipeline:
`nextStartTimeRef.current`, `sourcesRef.current` (the active set,
modelled as a list of distinct source objects) and the `isSpeaking`
React state. -/
structure BridgeState where
  nextStartTime : ℚ
  sources : List PlaybackUnit
  isSpeaking : Bool
deriving DecidableEq, Repr

/-- Audio-chunk reaction (lines 127–146 of useLiveGemini.ts): on a
message carrying inline audio, with the output context present, set
speaking, move the cursor to `max(nextStartTime, ctx.currentTime)`,
start one new source there, advance the cursor by the buffer duration
and add the source to the active set.  `ctxTime` is the output
channel's `currentTime` when the chunk is handled, `duration` the
decoded buffer's duration, `uid` the fresh source object. -/
def scheduleChunk (st : BridgeState) (uid : Nat) (duration ctxTime : ℚ) :
    BridgeState × PlaybackUnit :=
  let cursor := max st.nextStartTime ctxTime
  let u : PlaybackUnit := ⟨uid, cursor, duration⟩
  (⟨cursor + duration, u :: st.sources, true⟩, u)

/-- Interruption reaction (lines 148–154): stop every active source,
clear the set, reset `nextStartTimeRef` to 0 and set speaking false. -/
def interruptBridge (_st : BridgeState) : BridgeState :=
  ⟨0, [], false⟩

/-- `Set.delete` of one source object from the active set. -/
def removeUnit (v : PlaybackUnit) : List PlaybackUnit → List PlaybackUnit
  | [] => []
  | w :: rest => if w = v then rest else w :: removeUnit v rest

/-- The `ended` listener of a source (lines 138–141): delete the source
from the active set; if the set became empty, set speaking false. -/
def unitEnded (st : BridgeState) (v : PlaybackUnit) : BridgeState :=
  let rest := removeUnit v st.sources
  ⟨st.nextStartTime, rest, if rest = [] then false else st.isSpeaking⟩

/-! ## Persistence service data model (src/unnamed/part_000)

A user record as built at registration (lines 81–92); the update
endpoint receives a full record of the same shape.  JS `!field`
falsiness on the request strings is modelled by emptiness. -/

/-- An identity record of the `users` collection. -/
structure User where
  id : String
  phone : String
  password : String
  name : String
  email : String
  bio : String
  joinedDate : String
  learnedData : List String
  traits : List String
  customInstructions : String
deriving DecidableEq, Repr

/-- A user with the `password` field destructured away
(`const { password, ...userSafe } = user`). -/
structure UserSafe where
  id : String
  phone : String
  name : String
  email : String
  bio : String
  joinedDate : String
  learnedData : List String
  traits : List String
  customInstructions : String
deriving DecidableEq, Repr

/-- Drop the password field from a user record. -/
def User.toSafe (u : User) : UserSafe :=
  ⟨u.id, u.phone, u.name, u.email, u.bio, u.joinedDate,
   u.learnedData, u.traits, u.customInstructions⟩

/-- A session record: an externally supplied id, the owning user id and
an opaque payload (the rest of the JSON body, not inspected by the
server). -/
structure Session where
  id : String
  userId : String
  payload : String
deriving DecidableEq, Repr

/-- The whole persisted JSON document. -/
structure Db where
  users : List User
  sessions : List Session
deriving DecidableEq, Repr

/-- What a read of the database file can yield before `getDb`
normalises it: no file, unparsable content, or a parsed object in which
either collection may be absent. -/
inductive RawDb where
  | missing : RawDb
  | corrupt : RawDb
  | parsed : Option (List User) → Option (List Session) → RawDb
deriving DecidableEq, Repr

/-- `getDb` (lines 42–56): a missing file or a parse/read error yields
the empty two-collection structure; a parsed object has each absent
collection replaced by an empty one. -/
def getDb : RawDb → Db
  | .missing => ⟨[], []⟩
  | .corrupt => ⟨[], []⟩
  | .parsed us ss => ⟨us.getD [], ss.getD []⟩

/-- Outcome of a handler: the HTTP response, the persistent document
after the request, and whether `saveDb` was invoked. -/
structure HandlerOut (ρ : Type) where
  res : ρ
  db : Db
  saved : Bool
deriving Repr

/-! ## Persistence service handlers -/

/-- Response of POST /api/auth/register. -/
inductive RegisterRes where
  | missingFields : RegisterRes          -- 400
  | conflict : RegisterRes               -- 409 duplicate phone
  | saveError : RegisterRes              -- 500 storage failure
  | ok : UserSafe → RegisterRes          -- 200
deriving DecidableEq, Repr

/-- HTTP status of a register response. -/
def RegisterRes.status : RegisterRes → Nat
  | .missingFields => 400
  | .conflict => 409
  | .saveError => 500
  | .ok _ => 200

/-- POST /api/auth/register (lines 69–103): reject empty fields with
400; reject an already-present phone with 409; otherwise append a new
user with the time-based id `genId`, the given joined date and default
fields, persist, and return the record without its password (500 when
`saveDb` reports failure).  `genId` and `joined` stand for
`Date.now().toString()` and the formatted current date. -/
def register (db : Db) (saveOk : Bool) (genId joined : String)
    (phone password name : String) : HandlerOut RegisterRes :=
  if phone = "" ∨ password = "" ∨ name = "" then
    ⟨.missingFields, db, false⟩
  else
    match db.users.find? (fun u => u.phone = phone) with
    | some _ => ⟨.conflict, db, false⟩
    | none =>
      let newUser : User :=
        ⟨genId, phone, password, name, "", "کاربر جدید", joined, [], [], ""⟩
      if saveOk then
        ⟨.ok newUser.toSafe, { db with users := db.users ++ [newUser] }, true⟩
      else
        ⟨.saveError, db, true⟩

/-- Response of POST /api/auth/login. -/
inductive LoginRes where
  | missingFields : LoginRes             -- 400
  | notFound : LoginRes                  -- 404 no such phone
  | unauthorized : LoginRes              -- 401 wrong password
  | ok : UserSafe → LoginRes             -- 200
deriving DecidableEq, Repr

/-- POST /api/auth/login (lines 105–122): 400 on empty fields, 404 when
no user has the phone, 401 when the stored password differs, otherwise
the matching user without its password.  Nothing is written. -/
def login (db : Db) (phone password : String) : HandlerOut LoginRes :=
  if phone = "" ∨ password = "" then
    ⟨.missingFields, db, false⟩
  else
    match db.users.find? (fun u => u.phone = phone) with
    | none => ⟨.notFound, db, false⟩
    | some u =>
      if u.password ≠ password then ⟨.unauthorized, db, false⟩
      else ⟨.ok u.toSafe, db, false⟩

/-- Response of POST /api/user/update. -/
inductive UpdateRes where
  | missingId : UpdateRes                -- 400
  | notFound : UpdateRes                 -- 404
  | ok : User → UpdateRes                -- 200, echoes the request body
deriving DecidableEq, Repr

/-- Replace the first user whose id matches the request
(`findIndex` + assignment, lines 130–133), keeping the stored password:
`db.users[index] = { ...updatedUser, password: currentPass }`.
`none` when no user has the id. -/
def updateFirstById (upd : User) : List User → Option (List User)
  | [] => none
  | u :: rest =>
    if u.id = upd.id then
      some ({ upd with password := u.password } :: rest)
    else
      (updateFirstById upd rest).map (u :: ·)

/-- POST /api/user/update (lines 125–140): 400 without an id, 404 when
no user has the id; otherwise overwrite that user from the request with
the stored password preserved, persist (the `saveDb` result is not
checked) and echo the request body. -/
def updateUser (db : Db) (saveOk : Bool) (upd : User) : HandlerOut UpdateRes :=
  if upd.id = "" then
    ⟨.missingId, db, false⟩
  else
    match updateFirstById upd db.users with
    | none => ⟨.notFound, db, false⟩
    | some users2 =>
      ⟨.ok upd, if saveOk then { db with users := users2 } else db, true⟩

/-- GET /api/user/:id (lines 142–153): the matching user without its
password, or 404; a pure read. -/
def getUser (db : Db) (uid : String) : HandlerOut (Option UserSafe) :=
  match db.users.find? (fun u => u.id = uid) with
  | some u => ⟨some u.toSafe, db, false⟩
  | none => ⟨none, db, false⟩

/-- Response of POST /api/sessions.  The 500 arm corresponds to the
handler's catch block (line 175); `saveDb` catches its own error and
returns `false` instead of throwing, so inside the model the catch is
never reached. -/
inductive SessionSaveRes where
  | ok : Session → SessionSaveRes        -- 200, echoes the request body
  | err : SessionSaveRes                 -- 500 "Save failed"
deriving DecidableEq, Repr

/-- HTTP status of a session-save response. -/
def SessionSaveRes.status : SessionSaveRes → Nat
  | .ok _ => 200
  | .err => 500

/-- Replace the first session whose id matches, else push at the end
(`findIndex` then assignment or `push`, lines 167–172). -/
def upsertList (s : Session) : List Session → List Session
  | [] => [s]
  | t :: rest => if t.id = s.id then s :: rest else t :: upsertList s rest

/-- POST /api/sessions (lines 163–176): replace-by-id or append, then
`saveDb(db)` with its boolean result discarded, then echo the request
body with status 200 unconditionally. -/
def upsertSession (db : Db) (saveOk : Bool) (s : Session) :
    HandlerOut SessionSaveRes :=
  let sessions2 := upsertList s db.sessions
  ⟨.ok s, if saveOk then { db with sessions := sessions2 } else db, true⟩

/-- Response of DELETE /api/sessions/:id. -/
inductive DeleteRes where
  | notFound : DeleteRes                 -- 404
  | ok : DeleteRes                       -- 200 { success: true }
deriving DecidableEq, Repr

/-- DELETE /api/sessions/:id (lines 178–190): filter out the id; if the
length changed, persist and acknowledge, otherwise 404 without
persisting. -/
def deleteSession (db : Db) (saveOk : Bool) (sid : String) :
    HandlerOut DeleteRes :=
  let remaining := db.sessions.filter (fun s => s.id ≠ sid)
  if remaining.length ≠ db.sessions.length then
    ⟨.ok, if saveOk then { db with sessions := remaining } else db, true⟩
  else
    ⟨.notFound, db, false⟩

/-- Iterated POST /api/sessions with successful writes, the persistent
document threaded through. -/
def upsertMany (db : Db) (ss : List Session) : Db :=
  ss.foldl (fun d s => (upsertSession d true s).db) db

end Shahryar

namespace Shahryar

/-! ## Helper lemmas -/

/-- `upsertList` on a list without the id appends at the end. -/
theorem upsertList_of_not_mem (s : Session) (l : List Session)
    (h : ∀ t ∈ l, t.id ≠ s.id) : upsertList s l = l ++ [s] := by
  induction l with
  | nil => rfl
  | cons t rest ih =>
    have ht : t.id ≠ s.id := h t (List.mem_cons_self t rest)
    simp only [upsertList, if_neg ht, List.cons_append]
    exact congrArg (t :: ·) (ih fun x hx => h x (List.mem_cons_of_mem t hx))

/-- `upsertList` replaces the first matching record in place. -/
theorem upsertList_replaces_first (s t : Session) (l1 l2 : List Session)
    (h1 : ∀ x ∈ l1, x.id ≠ s.id) (ht : t.id = s.id) :
    upsertList s (l1 ++ t :: l2) = l1 ++ s :: l2 := by
  induction l1 with
  | nil => simp only [List.nil_append, upsertList, if_pos ht]
  | cons x rest ih =>
    have hx : x.id ≠ s.id := h1 x (List.mem_cons_self x rest)
    simp only [List.cons_append, upsertList, if_neg hx]
    exact congrArg (x :: ·) (ih fun y hy => h1 y (List.mem_cons_of_mem x hy))

/-- After an upsert into a list holding at most one record with the id,
the records with that id are exactly the upserted one. -/
theorem upsertList_filter_eq (s : Session) (l : List Session)
    (h : (l.countP (fun t => t.id = s.id)) ≤ 1) :
    (upsertList s l).filter (fun t => t.id = s.id) = [s] := by
  induction l with
  | nil => simp [upsertList]
  | cons t rest ih =>
    by_cases ht : t.id = s.id
    · have hc : rest.countP (fun x => x.id = s.id) = 0 := by
        rw [List.countP_cons] at h
        simp only [ht, decide_True, if_true] at h
        omega
      have hfil : rest.filter (fun x => x.id = s.id) = [] := by
        rw [List.filter_eq_nil_iff]
        intro a ha
        exact List.countP_eq_zero.mp hc a ha
      simp [upsertList, ht, List.filter_cons, hfil]
    · have hle : rest.countP (fun x => x.id = s.id) ≤ 1 := by
        rw [List.countP_cons] at h
        exact le_trans (Nat.le_add_right _ _) h
      simp [upsertList, ht, List.filter_cons, ih hle]

/-- `upsertList_filter_eq` with the predicate phrased through the shared
id of the upserted records. -/
theorem upsertList_filter_eq_of_id (i : String) (s : Session) (hs : s.id = i)
    (l : List Session) (h : l.countP (fun t => t.id = i) ≤ 1) :
    (upsertList s l).filter (fun t => t.id = i) = [s] := by
  subst hs
  exact upsertList_filter_eq s l h

/-- A nonempty run of upserts sharing one id, into a document holding at
most one session with that id, leaves exactly the last upserted record
with that id. -/
theorem upsertMany_filter (i : String) (ss : List Session) :
    ∀ (s0 : Session) (db : Db), (∀ t ∈ s0 :: ss, t.id = i) →
      db.sessions.countP (fun t => t.id = i) ≤ 1 →
      (upsertMany db (s0 :: ss)).sessions.filter (fun t => t.id = i)
        = [(s0 :: ss).getLast (List.cons_ne_nil s0 ss)] := by
  induction ss with
  | nil =>
    intro s0 db hid h1
    have hs0 : s0.id = i := hid s0 (List.mem_cons_self s0 [])
    simp only [upsertMany, List.foldl, upsertSession, if_true,
      List.getLast_singleton]
    exact upsertList_filter_eq_of_id i s0 hs0 db.sessions h1
  | cons s1 rest ih =>
    intro s0 db hid h1
    have hs0 : s0.id = i := hid s0 (List.mem_cons_self s0 _)
    have hid1 : ∀ t ∈ s1 :: rest, t.id = i := fun t ht =>
      hid t (List.mem_cons_of_mem s0 ht)
    have hstep : (upsertSession db true s0).db.sessions.filter
        (fun t => t.id = i) = [s0] :=
      upsertList_filter_eq_of_id i s0 hs0 db.sessions h1
    have hcount : (upsertSession db true s0).db.sessions.countP
        (fun t => t.id = i) ≤ 1 := by
      rw [List.countP_eq_length_filter, hstep]
      simp
    have hrec := ih s1 (upsertSession db true s0).db hid1 hcount
    have hfold : upsertMany db (s0 :: s1 :: rest)
        = upsertMany (upsertSession db true s0).db (s1 :: rest) := rfl
    rw [hfold, hrec]
    rw [List.getLast_cons (List.cons_ne_nil s1 rest)]

/-- `find?` on a list with no match followed by a matching singleton
finds that element. -/
theorem find?_append_singleton {α : Type} (p : α → Bool) (l : List α) (u : α)
    (h : ∀ x ∈ l, ¬ p x = true) (hu : p u = true) :
    (l ++ [u]).find? p = some u := by
  induction l with
  | nil => simp [List.find?_cons_of_pos _ hu]
  | cons a rest ih =>
    have ha := h a (List.mem_cons_self a rest)
    rw [List.cons_append, List.find?_cons_of_neg _ ha]
    exact ih fun x hx => h x (List.mem_cons_of_mem a hx)

/-- In a list holding at most one element satisfying `p`, a member
satisfying `p` is what `find?` returns. -/
theorem find?_eq_of_countP_le_one {α : Type} (p : α → Bool) (l : List α)
    (u : α) (h1 : l.countP p ≤ 1) (hu : u ∈ l) (hpu : p u = true) :
    l.find? p = some u := by
  induction l with
  | nil => cases hu
  | cons a rest ih =>
    by_cases hpa : p a = true
    · have hrest0 : rest.countP p = 0 := by
        rw [List.countP_cons, hpa, if_pos rfl] at h1
        omega
      have hua : u = a := by
        rcases List.mem_cons.mp hu with h | h
        · exact h
        · exact absurd hpu (List.countP_eq_zero.mp hrest0 u h)
      rw [hua]
      exact List.find?_cons_of_pos _ hpa
    · have hle : rest.countP p ≤ 1 := by
        rw [List.countP_cons] at h1
        exact le_trans (Nat.le_add_right _ _) h1
      have hur : u ∈ rest := by
        rcases List.mem_cons.mp hu with h | h
        · exact absurd (h ▸ hpu) hpa
        · exact h
      rw [List.find?_cons_of_neg _ hpa]
      exact ih hle hur

/-- `updateFirstById` succeeds exactly on the record `find?` locates,
and afterwards the first record with the request's id is the request
with the stored password. -/
theorem updateFirstById_spec (upd : User) (l : List User) (stored : User)
    (hfind : l.find? (fun u => u.id = upd.id) = some stored) :
    ∃ l2, updateFirstById upd l = some l2 ∧
      l2.find? (fun u => u.id = upd.id)
        = some { upd with password := stored.password } := by
  induction l with
  | nil => simp [List.find?] at hfind
  | cons u rest ih =>
    by_cases hu : u.id = upd.id
    · have hcons : List.find? (fun v : User => v.id = upd.id) (u :: rest)
          = some u := List.find?_cons_of_pos rest (by simp [hu])
      have hstored : stored = u := by
        rw [hcons] at hfind
        exact (Option.some.injEq _ _).mp hfind.symm
      refine ⟨{ upd with password := u.password } :: rest, ?_, ?_⟩
      · simp [updateFirstById, hu]
      · rw [hstored]
        exact List.find?_cons_of_pos rest (by simp)
    · have hcons : List.find? (fun v : User => v.id = upd.id) (u :: rest)
          = List.find? (fun v : User => v.id = upd.id) rest :=
        List.find?_cons_of_neg rest (by simp [hu])
      rw [hcons] at hfind
      obtain ⟨l2, hl2, hfind2⟩ := ih hfind
      refine ⟨u :: l2, ?_, ?_⟩
      · simp [updateFirstById, hu, hl2]
      · have hcons2 : List.find? (fun v : User => v.id = upd.id) (u :: l2)
            = List.find? (fun v : User => v.id = upd.id) l2 :=
          List.find?_cons_of_neg l2 (by simp [hu])
        rw [hcons2]
        exact hfind2

end Shahryar

namespace Shahryar

/-! ## Claims C1 and C2: audio bridge -/

/-- C1: an inline audio chunk is decoded into one playback unit started
at `max(cursor, ctx.currentTime)`, the cursor advances by exactly its
duration, the unit joins the active set and speaking becomes true; a
second chunk arriving no later than the first unit's end starts exactly
at the first unit's start plus its duration (gapless); and a unit's
completion while speaking turns speaking off exactly when it empties
the active set. -/
theorem audio_chunk_scheduling_gapless
    (st : BridgeState) (uid1 uid2 : Nat) (d1 d2 t1 t2 : ℚ)
    (s : BridgeState) (v : PlaybackUnit)
    (hArrive : t2 ≤ ((scheduleChunk st uid1 d1 t1).1).nextStartTime)
    (hSpeak : s.isSpeaking = true) :
    ((scheduleChunk st uid1 d1 t1).2.start = max st.nextStartTime t1) ∧
    ((scheduleChunk st uid1 d1 t1).1.nextStartTime
        = (scheduleChunk st uid1 d1 t1).2.start + d1) ∧
    ((scheduleChunk st uid1 d1 t1).2 ∈ (scheduleChunk st uid1 d1 t1).1.sources) ∧
    ((scheduleChunk st uid1 d1 t1).1.isSpeaking = true) ∧
    ((scheduleChunk (scheduleChunk st uid1 d1 t1).1 uid2 d2 t2).2.start
        = (scheduleChunk st uid1 d1 t1).2.start
          + (scheduleChunk st uid1 d1 t1).2.duration) ∧
    ((unitEnded s v).isSpeaking = false ↔ removeUnit v s.sources = []) := by
  refine ⟨rfl, rfl, List.mem_cons_self _ _, rfl, ?_, ?_⟩
  · simp only [scheduleChunk]
    exact max_eq_left hArrive
  · simp only [unitEnded]
    constructor
    · intro h
      by_contra hne
      rw [if_neg hne] at h
      rw [hSpeak] at h
      exact Bool.true_eq_false.mp h
    · intro h
      rw [if_pos h]

/-- Witness for C1 at concrete inputs. -/
theorem audio_chunk_scheduling_gapless_witness :
    ((scheduleChunk ⟨0, [], false⟩ 1 (2 : ℚ) 0).2.start = max 0 0) ∧
    ((scheduleChunk ⟨0, [], false⟩ 1 (2 : ℚ) 0).1.nextStartTime
        = (scheduleChunk ⟨0, [], false⟩ 1 (2 : ℚ) 0).2.start + 2) ∧
    ((scheduleChunk ⟨0, [], false⟩ 1 (2 : ℚ) 0).2
        ∈ (scheduleChunk ⟨0, [], false⟩ 1 (2 : ℚ) 0).1.sources) ∧
    ((scheduleChunk ⟨0, [], false⟩ 1 (2 : ℚ) 0).1.isSpeaking = true) ∧
    ((scheduleChunk (scheduleChunk ⟨0, [], false⟩ 1 (2 : ℚ) 0).1 2 3 1).2.start
        = (scheduleChunk ⟨0, [], false⟩ 1 (2 : ℚ) 0).2.start
          + (scheduleChunk ⟨0, [], false⟩ 1 (2 : ℚ) 0).2.duration) ∧
    ((unitEnded ⟨2, [⟨1, 0, 2⟩], true⟩ ⟨1, 0, 2⟩).isSpeaking = false ↔
        removeUnit ⟨1, 0, 2⟩ [⟨1, 0, 2⟩] = []) :=
  audio_chunk_scheduling_gapless ⟨0, [], false⟩ 1 2 2 3 0 1
    ⟨2, [⟨1, 0, 2⟩], true⟩ ⟨1, 0, 2⟩ (by norm_num [scheduleChunk]) rfl

/-- C2: the interruption reaction, from any bridge state, discards every
active playback unit, resets the cursor to zero and sets speaking
false. -/
theorem interruption_clears_everything (st : BridgeState) :
    (interruptBridge st).sources = [] ∧
    (interruptBridge st).nextStartTime = 0 ∧
    (interruptBridge st).isSpeaking = false :=
  ⟨rfl, rfl, rfl⟩

/-! ## Claims C3–C10: persistence service -/

/-- C3 counterexample: an UpsertSession whose write fails still answers
200 echoing the record, not 500 — the handler discards the `saveDb`
result. -/
theorem upsert_write_failure_still_200 :
    (upsertSession ⟨[], []⟩ false ⟨"s1", "u1", "x"⟩).res
        = SessionSaveRes.ok ⟨"s1", "u1", "x"⟩ ∧
    (upsertSession ⟨[], []⟩ false ⟨"s1", "u1", "x"⟩).res.status = 200 ∧
    ¬ (upsertSession ⟨[], []⟩ false ⟨"s1", "u1", "x"⟩).res.status = 500 := by
  exact ⟨rfl, rfl, by decide⟩

/-- C3 amended: for every UpsertSession request whose write to storage
fails, the handler still responds 200 echoing the record (the failed
boolean from `saveDb` is never inspected), and the persistent document
is left as it was. -/
theorem upsert_write_failure_behaviour (db : Db) (s : Session) :
    (upsertSession db false s).res = SessionSaveRes.ok s ∧
    (upsertSession db false s).res.status = 200 ∧
    (upsertSession db false s).db = db ∧
    (upsertSession db false s).saved = true :=
  ⟨rfl, rfl, rfl, rfl⟩

/-- C9: a storage read that finds no file or unparsable content yields
the empty two-collection document, and a parsed document lacking either
collection has it completed to an empty sequence while a present
collection is kept — no failure is propagated. -/
theorem getDb_fallback_structure :
    (getDb RawDb.missing = ⟨[], []⟩) ∧
    (getDb RawDb.corrupt = ⟨[], []⟩) ∧
    (∀ ss, getDb (RawDb.parsed none ss) = ⟨[], ss.getD []⟩) ∧
    (∀ us, getDb (RawDb.parsed us none) = ⟨us.getD [], []⟩) ∧
    (∀ us ss, getDb (RawDb.parsed (some us) (some ss)) = ⟨us, ss⟩) := by
  refine ⟨rfl, rfl, fun ss => ?_, fun us => ?_, fun us ss => rfl⟩
  · rfl
  · cases us <;> rfl

/-- C4: an UpdateIdentity request whose id is stored keeps the stored
password (whatever password the request carries), overwrites every
other field of that identity from the request, persists, and echoes the
request body. -/
theorem update_preserves_stored_password (db : Db) (upd stored : User)
    (hid : upd.id ≠ "")
    (hfind : db.users.find? (fun u => u.id = upd.id) = some stored) :
    (updateUser db true upd).res = UpdateRes.ok upd ∧
    (updateUser db true upd).db.users.find? (fun u => u.id = upd.id)
        = some { upd with password := stored.password } ∧
    (updateUser db true upd).saved = true := by
  obtain ⟨l2, hl2, hfind2⟩ := updateFirstById_spec upd db.users stored hfind
  have hout : updateUser db true upd
      = ⟨UpdateRes.ok upd, { db with users := l2 }, true⟩ := by
    simp [updateUser, hid, hl2]
  rw [hout]
  exact ⟨rfl, hfind2, rfl⟩

/-- Witness for C4 at concrete inputs: the stored password "secret"
survives an update that carries password "hacked". -/
theorem update_preserves_stored_password_witness :
    (updateUser ⟨[⟨"u1", "0912", "secret", "Ali", "", "b", "d", [], [], ""⟩], []⟩
        true ⟨"u1", "0999", "hacked", "Vali", "e", "b2", "d2", [], [], "ci"⟩).res
      = UpdateRes.ok ⟨"u1", "0999", "hacked", "Vali", "e", "b2", "d2", [], [], "ci"⟩ ∧
    (updateUser ⟨[⟨"u1", "0912", "secret", "Ali", "", "b", "d", [], [], ""⟩], []⟩
        true ⟨"u1", "0999", "hacked", "Vali", "e", "b2", "d2", [], [], "ci"⟩).db.users.find?
        (fun u => u.id = "u1")
      = some ⟨"u1", "0999", "secret", "Vali", "e", "b2", "d2", [], [], "ci"⟩ ∧
    (updateUser ⟨[⟨"u1", "0912", "secret", "Ali", "", "b", "d", [], [], ""⟩], []⟩
        true ⟨"u1", "0999", "hacked", "Vali", "e", "b2", "d2", [], [], "ci"⟩).saved
      = true :=
  update_preserves_stored_password
    ⟨[⟨"u1", "0912", "secret", "Ali", "", "b", "d", [], [], ""⟩], []⟩
    ⟨"u1", "0999", "hacked", "Vali", "e", "b2", "d2", [], [], "ci"⟩
    ⟨"u1", "0912", "secret", "Ali", "", "b", "d", [], [], ""⟩
    (by decide) rfl

/-- C5: registering a phone not yet stored appends exactly one identity
with the generated id and default fields and answers it without its
password; a second registration of the same phone answers conflict,
changes nothing, persists nothing, and the store keeps exactly one
identity with that phone. -/
theorem register_duplicate_conflict (db : Db)
    (genId1 joined1 genId2 joined2 phone pw1 nm1 pw2 nm2 : String)
    (hp : phone ≠ "") (hpw1 : pw1 ≠ "") (hn1 : nm1 ≠ "")
    (hpw2 : pw2 ≠ "") (hn2 : nm2 ≠ "")
    (h0 : ∀ u ∈ db.users, u.phone ≠ phone) :
    ((register db true genId1 joined1 phone pw1 nm1).res
        = RegisterRes.ok (User.toSafe
            ⟨genId1, phone, pw1, nm1, "", "کاربر جدید", joined1, [], [], ""⟩)) ∧
    ((register db true genId1 joined1 phone pw1 nm1).db.users
        = db.users
          ++ [⟨genId1, phone, pw1, nm1, "", "کاربر جدید", joined1, [], [], ""⟩]) ∧
    ((register db true genId1 joined1 phone pw1 nm1).saved = true) ∧
    ((register db true genId1 joined1 phone pw1 nm1).db.users.countP
        (fun u => u.phone = phone) = 1) ∧
    ((register (register db true genId1 joined1 phone pw1 nm1).db true genId2
        joined2 phone pw2 nm2).res = RegisterRes.conflict) ∧
    ((register (register db true genId1 joined1 phone pw1 nm1).db true genId2
        joined2 phone pw2 nm2).db
        = (register db true genId1 joined1 phone pw1 nm1).db) ∧
    ((register (register db true genId1 joined1 phone pw1 nm1).db true genId2
        joined2 phone pw2 nm2).saved = false) := by
  have hval1 : ¬ (phone = "" ∨ pw1 = "" ∨ nm1 = "") := by
    push_neg
    exact ⟨hp, hpw1, hn1⟩
  have hval2 : ¬ (phone = "" ∨ pw2 = "" ∨ nm2 = "") := by
    push_neg
    exact ⟨hp, hpw2, hn2⟩
  have hfind0 : db.users.find? (fun u => u.phone = phone) = none :=
    List.find?_eq_none.mpr (fun x hx => by simpa using h0 x hx)
  have ho1 : register db true genId1 joined1 phone pw1 nm1
      = ⟨RegisterRes.ok (User.toSafe
            ⟨genId1, phone, pw1, nm1, "", "کاربر جدید", joined1, [], [], ""⟩),
          { db with users := db.users
              ++ [⟨genId1, phone, pw1, nm1, "", "کاربر جدید", joined1, [], [], ""⟩] },
          true⟩ := by
    simp [register, hval1, hfind0]
  have hfind1 : (db.users
        ++ [(⟨genId1, phone, pw1, nm1, "", "کاربر جدید", joined1, [], [], ""⟩ : User)]).find?
        (fun u => u.phone = phone)
      = some ⟨genId1, phone, pw1, nm1, "", "کاربر جدید", joined1, [], [], ""⟩ := by
    apply find?_append_singleton
    · intro x hx
      simpa using h0 x hx
    · simp
  have ho2 : register (register db true genId1 joined1 phone pw1 nm1).db true
        genId2 joined2 phone pw2 nm2
      = ⟨RegisterRes.conflict,
          (register db true genId1 joined1 phone pw1 nm1).db, false⟩ := by
    rw [ho1]
    simp [register, hval2, hfind1]
  have h0c : db.users.countP (fun u => u.phone = phone) = 0 :=
    List.countP_eq_zero.mpr (fun a ha => by simpa using h0 a ha)
  refine ⟨?_, ?_, ?_, ?_, ?_, ?_, ?_⟩
  · rw [ho1]
  · rw [ho1]
  · rw [ho1]
  · rw [ho1]
    simp [List.countP_append, List.countP_cons, h0c]
  · rw [ho2]
  · rw [ho2]
  · rw [ho2]

/-- Witness for C5 at concrete inputs. -/
theorem register_duplicate_conflict_witness :
    ((register ⟨[], []⟩ true "1" "j1" "0912" "pass" "Ali").res
        = RegisterRes.ok (User.toSafe
            ⟨"1", "0912", "pass", "Ali", "", "کاربر جدید", "j1", [], [], ""⟩)) ∧
    ((register ⟨[], []⟩ true "1" "j1" "0912" "pass" "Ali").db.users
        = [] ++ [⟨"1", "0912", "pass", "Ali", "", "کاربر جدید", "j1", [], [], ""⟩]) ∧
    ((register ⟨[], []⟩ true "1" "j1" "0912" "pass" "Ali").saved = true) ∧
    ((register ⟨[], []⟩ true "1" "j1" "0912" "pass" "Ali").db.users.countP
        (fun u => u.phone = "0912") = 1) ∧
    ((register (register ⟨[], []⟩ true "1" "j1" "0912" "pass" "Ali").db true "2"
        "j2" "0912" "x" "B").res = RegisterRes.conflict) ∧
    ((register (register ⟨[], []⟩ true "1" "j1" "0912" "pass" "Ali").db true "2"
        "j2" "0912" "x" "B").db
        = (register ⟨[], []⟩ true "1" "j1" "0912" "pass" "Ali").db) ∧
    ((register (register ⟨[], []⟩ true "1" "j1" "0912" "pass" "Ali").db true "2"
        "j2" "0912" "x" "B").saved = false) :=
  register_duplicate_conflict ⟨[], []⟩ "1" "j1" "2" "j2" "0912" "pass" "Ali"
    "x" "B" (by decide) (by decide) (by decide) (by decide) (by decide)
    (by intro u hu; cases hu)

/-- C6: a Login with non-empty credentials answers not-found exactly
when no identity has the phone, unauthorized exactly when the (unique)
identity with that phone has a different stored password, otherwise the
identity without its password; the store is never modified. -/
theorem login_characterisation (db : Db) (phone pw : String)
    (hp : phone ≠ "") (hpw : pw ≠ "")
    (huniq : db.users.countP (fun u => u.phone = phone) ≤ 1) :
    ((login db phone pw).res = LoginRes.notFound ↔
        ∀ u ∈ db.users, u.phone ≠ phone) ∧
    ((login db phone pw).res = LoginRes.unauthorized ↔
        ∃ u ∈ db.users, u.phone = phone ∧ u.password ≠ pw) ∧
    (∀ u ∈ db.users, u.phone = phone → u.password = pw →
        (login db phone pw).res = LoginRes.ok u.toSafe) ∧
    (login db phone pw).db = db ∧ (login db phone pw).saved = false := by
  have hval : ¬ (phone = "" ∨ pw = "") := by
    push_neg
    exact ⟨hp, hpw⟩
  cases hfind : db.users.find? (fun u => u.phone = phone) with
  | none =>
    have hnone : ∀ u ∈ db.users, u.phone ≠ phone := fun u hu => by
      simpa using List.find?_eq_none.mp hfind u hu
    have hres : login db phone pw = ⟨LoginRes.notFound, db, false⟩ := by
      simp [login, hval, hfind]
    rw [hres]
    refine ⟨iff_of_true rfl hnone, ?_, ?_, rfl, rfl⟩
    · constructor
      · intro h
        exact LoginRes.noConfusion h
      · rintro ⟨u, hu, hup, _⟩
        exact absurd hup (hnone u hu)
    · intro u hu hup _
      exact absurd hup (hnone u hu)
  | some u =>
    have hu_mem : u ∈ db.users := List.mem_of_find?_eq_some hfind
    have hu_ph : u.phone = phone := by simpa using List.find?_some hfind
    by_cases hupw : u.password = pw
    · have hres : login db phone pw = ⟨LoginRes.ok u.toSafe, db, false⟩ := by
        simp [login, hval, hfind, hupw]
      rw [hres]
      refine ⟨?_, ?_, ?_, rfl, rfl⟩
      · constructor
        · intro h
          exact LoginRes.noConfusion h
        · intro h
          exact absurd hu_ph (h u hu_mem)
      · constructor
        · intro h
          exact LoginRes.noConfusion h
        · rintro ⟨v, hv, hvp, hvpw⟩
          have hfv : db.users.find? (fun x => x.phone = phone) = some v :=
            find?_eq_of_countP_le_one _ db.users v huniq hv (by simp [hvp])
          rw [hfind] at hfv
          have huv : u = v := Option.some.inj hfv
          exact absurd (huv ▸ hupw) hvpw
      · intro v hv hvp hvpw
        have hfv : db.users.find? (fun x => x.phone = phone) = some v :=
          find?_eq_of_countP_le_one _ db.users v huniq hv (by simp [hvp])
        rw [hfind] at hfv
        have huv : u = v := Option.some.inj hfv
        rw [← huv]
    · have hres : login db phone pw = ⟨LoginRes.unauthorized, db, false⟩ := by
        simp [login, hval, hfind, hupw]
      rw [hres]
      refine ⟨?_, iff_of_true rfl ⟨u, hu_mem, hu_ph, hupw⟩, ?_, rfl, rfl⟩
      · constructor
        · intro h
          exact LoginRes.noConfusion h
        · intro h
          exact absurd hu_ph (h u hu_mem)
      · intro v hv hvp hvpw
        have hfv : db.users.find? (fun x => x.phone = phone) = some v :=
          find?_eq_of_countP_le_one _ db.users v huniq hv (by simp [hvp])
        rw [hfind] at hfv
        have huv : u = v := Option.some.inj hfv
        exact absurd (huv ▸ hvpw) hupw

/-- Witness for C6 at concrete inputs: one stored identity, a wrong and
a matching password. -/
theorem login_characterisation_witness :
    ((login ⟨[⟨"u1", "0912", "pass", "Ali", "", "b", "d", [], [], ""⟩], []⟩
        "0912" "wrong").res = LoginRes.notFound ↔
        ∀ u ∈ [(⟨"u1", "0912", "pass", "Ali", "", "b", "d", [], [], ""⟩ : User)],
          u.phone ≠ "0912") ∧
    ((login ⟨[⟨"u1", "0912", "pass", "Ali", "", "b", "d", [], [], ""⟩], []⟩
        "0912" "wrong").res = LoginRes.unauthorized ↔
        ∃ u ∈ [(⟨"u1", "0912", "pass", "Ali", "", "b", "d", [], [], ""⟩ : User)],
          u.phone = "0912" ∧ u.password ≠ "wrong") ∧
    (∀ u ∈ [(⟨"u1", "0912", "pass", "Ali", "", "b", "d", [], [], ""⟩ : User)],
        u.phone = "0912" → u.password = "wrong" →
        (login ⟨[⟨"u1", "0912", "pass", "Ali", "", "b", "d", [], [], ""⟩], []⟩
          "0912" "wrong").res = LoginRes.ok u.toSafe) ∧
    (login ⟨[⟨"u1", "0912", "pass", "Ali", "", "b", "d", [], [], ""⟩], []⟩
        "0912" "wrong").db
      = ⟨[⟨"u1", "0912", "pass", "Ali", "", "b", "d", [], [], ""⟩], []⟩ ∧
    (login ⟨[⟨"u1", "0912", "pass", "Ali", "", "b", "d", [], [], ""⟩], []⟩
        "0912" "wrong").saved = false :=
  login_characterisation
    ⟨[⟨"u1", "0912", "pass", "Ali", "", "b", "d", [], [], ""⟩], []⟩
    "0912" "wrong" (by decide) (by decide) (by decide)

/-- C7: a nonempty run of UpsertSession calls sharing one id, starting
from a document holding at most one session with that id, leaves
exactly one session with that id, namely the last call's record; a call
whose id is absent appends the record at the end, and a call whose id
is present replaces the first matching record in place. -/
theorem upsert_session_idempotent (db : Db) (i : String) (s0 : Session)
    (ss : List Session)
    (hid : ∀ t ∈ s0 :: ss, t.id = i)
    (h1 : db.sessions.countP (fun t => t.id = i) ≤ 1) :
    ((upsertMany db (s0 :: ss)).sessions.filter (fun t => t.id = i)
        = [(s0 :: ss).getLast (List.cons_ne_nil s0 ss)]) ∧
    (∀ (d : Db) (s : Session), (∀ t ∈ d.sessions, t.id ≠ s.id) →
        (upsertSession d true s).db.sessions = d.sessions ++ [s]) ∧
    (∀ (d : Db) (s t : Session) (l1 l2 : List Session),
        d.sessions = l1 ++ t :: l2 → (∀ x ∈ l1, x.id ≠ s.id) → t.id = s.id →
        (upsertSession d true s).db.sessions = l1 ++ s :: l2) := by
  refine ⟨upsertMany_filter i ss s0 db hid h1, ?_, ?_⟩
  · intro d s hno
    have hsess : (upsertSession d true s).db.sessions
        = upsertList s d.sessions := rfl
    rw [hsess]
    exact upsertList_of_not_mem s d.sessions hno
  · intro d s t l1 l2 hd h1x ht
    have hsess : (upsertSession d true s).db.sessions
        = upsertList s d.sessions := rfl
    rw [hsess, hd]
    exact upsertList_replaces_first s t l1 l2 h1x ht

/-- Witness for C7 at concrete inputs: two upserts of id "a". -/
theorem upsert_session_idempotent_witness :
    ((upsertMany ⟨[], []⟩ [⟨"a", "u", "p1"⟩, ⟨"a", "u", "p2"⟩]).sessions.filter
        (fun t => t.id = "a")
        = [([⟨"a", "u", "p1"⟩, ⟨"a", "u", "p2"⟩] : List Session).getLast
            (List.cons_ne_nil _ _)]) ∧
    (∀ (d : Db) (s : Session), (∀ t ∈ d.sessions, t.id ≠ s.id) →
        (upsertSession d true s).db.sessions = d.sessions ++ [s]) ∧
    (∀ (d : Db) (s t : Session) (l1 l2 : List Session),
        d.sessions = l1 ++ t :: l2 → (∀ x ∈ l1, x.id ≠ s.id) → t.id = s.id →
        (upsertSession d true s).db.sessions = l1 ++ s :: l2) :=
  upsert_session_idempotent ⟨[], []⟩ "a" ⟨"a", "u", "p1"⟩ [⟨"a", "u", "p2"⟩]
    (by decide) (by decide)

/-- C8: deleting a session id that is not stored answers not-found and
leaves the persistent document untouched with nothing written; deleting
a stored id removes exactly the sessions with that id, persists, and
acknowledges success. -/
theorem delete_session_not_found_preserves (db : Db) (sid : String)
    (h : ∀ t ∈ db.sessions, t.id ≠ sid) :
    (deleteSession db true sid).res = DeleteRes.notFound ∧
    (deleteSession db true sid).db = db ∧
    (deleteSession db true sid).saved = false ∧
    (∀ (d : Db) (i : String) (t : Session), t ∈ d.sessions → t.id = i →
        (deleteSession d true i).res = DeleteRes.ok ∧
        (deleteSession d true i).db.sessions
            = d.sessions.filter (fun x => x.id ≠ i) ∧
        (deleteSession d true i).saved = true) := by
  have hfil : db.sessions.filter (fun x => x.id ≠ sid) = db.sessions :=
    List.filter_eq_self.mpr (fun a ha => by simpa using h a ha)
  have hlen : ¬ (db.sessions.filter (fun x => x.id ≠ sid)).length
      ≠ db.sessions.length := by
    rw [hfil]
    simp
  have hres : deleteSession db true sid = ⟨DeleteRes.notFound, db, false⟩ := by
    simp only [deleteSession, if_neg hlen]
  refine ⟨by rw [hres], by rw [hres], by rw [hres], ?_⟩
  intro d i t ht hti
  have hlt : (d.sessions.filter (fun x => x.id ≠ i)).length
      ≠ d.sessions.length := by
    intro heq
    have heqf : d.sessions.filter (fun x => x.id ≠ i) = d.sessions :=
      (List.filter_sublist d.sessions).eq_of_length heq
    have htf : t ∈ d.sessions.filter (fun x => x.id ≠ i) := by
      rw [heqf]
      exact ht
    have hx := (List.mem_filter.mp htf).2
    simp [hti] at hx
  have hres2 : deleteSession d true i
      = ⟨DeleteRes.ok,
          { d with sessions := d.sessions.filter (fun x => x.id ≠ i) },
          true⟩ := by
    simp [deleteSession]
    exact ⟨t, ht, hti⟩
  exact ⟨by rw [hres2], by rw [hres2], by rw [hres2]⟩

/-- Witness for C8 at concrete inputs: deleting id "zz" from a document
holding only session id "s1". -/
theorem delete_session_not_found_preserves_witness :
    (deleteSession ⟨[], [⟨"s1", "u", "p"⟩]⟩ true "zz").res
        = DeleteRes.notFound ∧
    (deleteSession ⟨[], [⟨"s1", "u", "p"⟩]⟩ true "zz").db
        = ⟨[], [⟨"s1", "u", "p"⟩]⟩ ∧
    (deleteSession ⟨[], [⟨"s1", "u", "p"⟩]⟩ true "zz").saved = false ∧
    (∀ (d : Db) (i : String) (t : Session), t ∈ d.sessions → t.id = i →
        (deleteSession d true i).res = DeleteRes.ok ∧
        (deleteSession d true i).db.sessions
            = d.sessions.filter (fun x => x.id ≠ i) ∧
        (deleteSession d true i).saved = true) :=
  delete_session_not_found_preserves ⟨[], [⟨"s1", "u", "p"⟩]⟩ "zz" (by decide)

/-- C10: the identity operations never touch the sessions collection
and the session operations never touch the identities collection of the
persistent document, whatever the request and whether or not the write
succeeds. -/
theorem collections_mutually_framed (db : Db) (saveOk : Bool)
    (genId joined phone pw nm uid sid : String) (upd : User) (s : Session) :
    ((register db saveOk genId joined phone pw nm).db.sessions
        = db.sessions) ∧
    ((login db phone pw).db = db) ∧
    ((updateUser db saveOk upd).db.sessions = db.sessions) ∧
    ((getUser db uid).db = db) ∧
    ((upsertSession db saveOk s).db.users = db.users) ∧
    ((deleteSession db saveOk sid).db.users = db.users) := by
  refine ⟨?_, ?_, ?_, ?_, ?_, ?_⟩
  · simp only [register]
    repeat' split
    all_goals rfl
  · simp only [login]
    repeat' split
    all_goals rfl
  · simp only [updateUser]
    repeat' split
    all_goals rfl
  · simp only [getUser]
    repeat' split
    all_goals rfl
  · simp only [upsertSession]
    repeat' split
    all_goals rfl
  · simp only [deleteSession]
    repeat' split
    all_goals rfl

end Shahryar
